import Mathlib

/-!
Verification of the fitme curve-fitting library (src/data.rs, src/expr/mod.rs,
src/expr/v1.rs, src/solve.rs) against its natural-language specification.

Modelling conventions:
* Rust f64 is idealised as the type F64 below: exact rational values (carried
  as unreduced integer fractions Q, kept unreduced so that every arithmetic
  operation is a kernel-computable integer operation) plus the three
  non-finite values infinity, negative infinity and NaN.  Arithmetic on
  finite values is exact (rounding is not modelled; no claim here depends on
  rounding), while the propagation rules for the non-finite values follow
  IEEE-754, because several claims are specifically about non-finite results.
  The negative zero of IEEE-754 is not modelled.  Equality of F64 values in
  the theorems below is representational equality of fractions, which is
  sound here: the equations proved compare values computed by identical
  operation trees, and the disequalities exhibited are between values of
  different kinds (finite versus non-finite) or between lists of names.
* f64::sqrt has irrational results on most finite inputs, so the development
  is parametric in a function sqrtF giving the value of sqrt on finite
  non-negative inputs; sqrt on negative and non-finite inputs is fixed by
  IEEE-754 and modelled concretely.  No claim depends on the finite values.
* The external crate meval (expression parsing and evaluation) is modelled at
  its interface: an meval Expr dereferences to its RPN token stream, in which
  every occurrence of an identifier appears as a Token::Var (the shunting-yard
  algorithm emits operands to the output queue immediately, so var tokens
  occur in formula-text order).  The evaluator a bind produces is abstracted
  as a function parameter F, since no claim depends on the numeric value of
  an expression.  The default meval Context provides the constants pi and e
  (returned by get_var) and a fixed table of functions.
* The external crate rmpfit (the Levenberg-Marquardt optimiser) is modelled
  by the Optimizer structure: from an initial parameter vector it produces
  either an error or a fitted vector together with the xerror vector, both of
  the same length as the input, matching mpfit's in-place update of the
  parameter buffer and MPStatus.xerror having one entry per parameter.
* miette's dynamic, chained errors are modelled by the structured inductive
  FitErr carrying the same information (the fuzzy-match help text attached to
  column-not-found errors is presentation and is not modelled).
-/

namespace Fitme

/-- Exact rational values as unreduced fractions of integers.  Values built
by the operations below from fractions with non-zero denominators again have
non-zero denominators; zero- and sign-tests go through num and num * den so
they are meaningful for every such fraction. -/
structure Q where
  num : Int
  den : Int
deriving DecidableEq, Repr

namespace Q

/-- An integer as a fraction. -/
def ofInt (n : Int) : Q := ⟨n, 1⟩

instance (n : ℕ) : OfNat Q n := ⟨⟨(n : Int), 1⟩⟩

/-- Exact rational addition (unreduced). -/
def add (a b : Q) : Q := ⟨a.num * b.den + b.num * a.den, a.den * b.den⟩

/-- Exact rational subtraction (unreduced). -/
def sub (a b : Q) : Q := ⟨a.num * b.den - b.num * a.den, a.den * b.den⟩

/-- Exact rational multiplication (unreduced). -/
def mul (a b : Q) : Q := ⟨a.num * b.num, a.den * b.den⟩

/-- Exact rational division (unreduced); only ever used on a non-zero
divisor (F64.div tests for zero first). -/
def div (a b : Q) : Q := ⟨a.num * b.den, a.den * b.num⟩

instance : Add Q := ⟨add⟩
instance : Sub Q := ⟨sub⟩
instance : Mul Q := ⟨mul⟩
instance : Div Q := ⟨div⟩

@[simp] lemma num_ofNat (n : ℕ) : (OfNat.ofNat n : Q).num = n := rfl

@[simp] lemma den_ofNat (n : ℕ) : (OfNat.ofNat n : Q).den = 1 := rfl

/-- The fraction represents zero (for a non-zero denominator). -/
def isZero (a : Q) : Prop := a.num = 0

/-- The fraction represents a positive value (for a non-zero denominator). -/
def isPos (a : Q) : Prop := 0 < a.num * a.den

/-- The fraction represents a negative value (for a non-zero denominator). -/
def isNeg (a : Q) : Prop := a.num * a.den < 0

instance (a : Q) : Decidable a.isZero := inferInstanceAs (Decidable (_ = _))
instance (a : Q) : Decidable a.isPos := inferInstanceAs (Decidable (_ < _))
instance (a : Q) : Decidable a.isNeg := inferInstanceAs (Decidable (_ < _))

lemma addCommQ (a b : Q) : a + b = b + a := by
  show Q.add a b = Q.add b a
  unfold add
  congr 1 <;> ring

end Q

/-- Idealised f64: exact rationals plus the IEEE-754 non-finite values. -/
inductive F64 where
  | fin (q : Q)
  | inf
  | ninf
  | nan
deriving DecidableEq, Repr

namespace F64

/-- f64::is_finite. -/
def isFinite : F64 → Bool
  | fin _ => true
  | _ => false

/-- IEEE-754 addition on the idealised f64 (finite part exact). -/
def add : F64 → F64 → F64
  | fin a, fin b => fin (a + b)
  | fin _, inf => inf
  | fin _, ninf => ninf
  | inf, fin _ => inf
  | ninf, fin _ => ninf
  | inf, inf => inf
  | ninf, ninf => ninf
  | inf, ninf => nan
  | ninf, inf => nan
  | nan, _ => nan
  | _, nan => nan

/-- IEEE-754 subtraction on the idealised f64 (finite part exact). -/
def sub : F64 → F64 → F64
  | fin a, fin b => fin (a - b)
  | fin _, inf => ninf
  | fin _, ninf => inf
  | inf, fin _ => inf
  | ninf, fin _ => ninf
  | inf, inf => nan
  | ninf, ninf => nan
  | inf, ninf => inf
  | ninf, inf => ninf
  | nan, _ => nan
  | _, nan => nan

/-- IEEE-754 multiplication on the idealised f64 (finite part exact). -/
def mul : F64 → F64 → F64
  | fin a, fin b => fin (a * b)
  | fin a, inf => if a.isPos then inf else if a.isNeg then ninf else nan
  | inf, fin a => if a.isPos then inf else if a.isNeg then ninf else nan
  | fin a, ninf => if a.isPos then ninf else if a.isNeg then inf else nan
  | ninf, fin a => if a.isPos then ninf else if a.isNeg then inf else nan
  | inf, inf => inf
  | ninf, ninf => inf
  | inf, ninf => ninf
  | ninf, inf => ninf
  | nan, _ => nan
  | _, nan => nan

/-- IEEE-754 division on the idealised f64 (finite part exact; division of a
finite value by exact zero gives a signed infinity or, for 0/0, NaN; the
unmodelled negative zero would only change the sign of an infinity). -/
def div : F64 → F64 → F64
  | fin a, fin b =>
    if b.isZero then (if a.isPos then inf else if a.isNeg then ninf else nan)
    else fin (a / b)
  | fin _, inf => fin 0
  | fin _, ninf => fin 0
  | inf, fin a => if a.isNeg then ninf else inf
  | ninf, fin a => if a.isNeg then inf else ninf
  | inf, inf => nan
  | inf, ninf => nan
  | ninf, inf => nan
  | ninf, ninf => nan
  | nan, _ => nan
  | _, nan => nan

instance : Add F64 := ⟨add⟩
instance : Sub F64 := ⟨sub⟩
instance : Mul F64 := ⟨mul⟩
instance : Div F64 := ⟨div⟩

end F64

/-- f64::sqrt, parametric in the (generally irrational, hence unspecified)
value sqrtF on finite non-negative inputs; the IEEE-754 cases sqrt(x) = NaN
for x < 0 and for NaN, sqrt(inf) = inf, sqrt(-inf) = NaN are concrete. -/
def sqrtV (sqrtF : Q → F64) : F64 → F64
  | F64.fin q => if q.isNeg then F64.nan else sqrtF q
  | F64.inf => F64.inf
  | F64.ninf => F64.nan
  | F64.nan => F64.nan

/-- x.powi(2) as used in solve.rs, i.e. x * x. -/
def sq (x : F64) : F64 := x * x

/-- Iterator::sum for f64: fold from 0.0 with addition. -/
def listSum (l : List F64) : F64 := l.foldl F64.add (F64.fin 0)

/-- Rust char::to_ascii_lowercase restricted to what matters for ASCII. -/
def asciiLower (c : Char) : Char :=
  if 'A' ≤ c ∧ c ≤ 'Z' then Char.ofNat (c.toNat + 32) else c

/-- Rust char::eq_ignore_ascii_case (equality of ASCII lowercasings). -/
def eqIgnoreAsciiCase (a b : Char) : Bool := asciiLower a == asciiLower b

/-- The character-by-character loop of data.rs str_eq_ignore_case_and_ws,
after both sides have had whitespace filtered out: equal length and
ASCII-case-insensitively equal characters. -/
def eqLoop : List Char → List Char → Bool
  | [], [] => true
  | [], _ :: _ => false
  | _ :: _, [] => false
  | a :: as, b :: bs => if eqIgnoreAsciiCase a b then eqLoop as bs else false

/-- data.rs str_eq_ignore_case_and_ws. -/
def strEqIgnoreCaseAndWs (a b : String) : Bool :=
  eqLoop (a.data.filter (fun c => !c.isWhitespace))
    (b.data.filter (fun c => !c.isWhitespace))

/-- data.rs Headers: the ordered list of column names. -/
structure Headers where
  names : List String
deriving DecidableEq

/-- The enumerate().find_map(..) loop of Headers::find_match, carried out with
an explicit running index. -/
def findMatchGo (p : String → Bool) : ℕ → List String → Option ℕ
  | _, [] => none
  | i, x :: xs => if p x then some i else findMatchGo p (i + 1) xs

/-- Headers::find_match. -/
def Headers.find_match (h : Headers) (p : String → Bool) : Option ℕ :=
  findMatchGo p 0 h.names

/-- Headers::find_ignore_case_and_ws. -/
def Headers.findIgnoreCaseAndWs (h : Headers) (s : String) : Option ℕ :=
  h.find_match (fun x => strEqIgnoreCaseAndWs x s)

/-- Headers::from_iter trims each name. -/
def Headers.fromIter (l : List String) : Headers :=
  ⟨l.map (fun t => t.trim)⟩

/-- data.rs Cell: a numeric or textual cell. -/
inductive Cell where
  | num (x : Q)
  | txt (s : String)
deriving DecidableEq

/-- data.rs Data: headers plus rows of cells. -/
structure Data where
  cols : Headers
  rows : List (List Cell)

/-- data.rs DataRow: a row with its index and the headers. -/
structure Row where
  idx : ℕ
  vals : List Cell
  hdrs : Headers

/-- rmpfit's MPError as far as fitme observes it: the Eval variant raised by
Fitter::eval, with the remaining optimiser-internal failures collapsed. -/
inductive MPError where
  | eval
  | other
deriving DecidableEq

/-- The structured content of the miette error chains produced in data.rs and
solve.rs (the fuzzy-match help strings are presentation and not modelled). -/
inductive FitErr where
  /-- could not find column NAME in headers. -/
  | colNotFound (name : String)
  /-- column index C not in table (chk_col on an out-of-range index). -/
  | colIdxNotInTable (c : ℕ)
  /-- failed to parse CONTENT as number, in column index COL, in row index ROW
  (DataRow::get_num reports the 1-based row index, idx + 1). -/
  | nonNumeric (row : ℕ) (col : ℕ) (content : String)
  /-- equation has 0 parameters to fit, wrapped with the supplied expression
  text when the equation exposes one. -/
  | zeroParams (expr : Option String)
  /-- failed to fit the equation to the input data, wrapping the rmpfit error. -/
  | solveFailed (e : MPError)
  /-- failed to solve equation when summarising. -/
  | summaryEval
deriving DecidableEq

/-- DataRow::get_num: None when the column index is out of range, a located
error when the cell is text, the number otherwise. -/
def Row.getNum (r : Row) (colidx : ℕ) : Option (Except FitErr Q) :=
  (r.vals.get? colidx).map (fun c =>
    match c with
    | Cell.num x => Except.ok x
    | Cell.txt s => Except.error (FitErr.nonNumeric (r.idx + 1) colidx s))

/-- Data::rows() enumerates the rows as DataRow values; explicit index-carrying
recursion. -/
def rowsOfGo (cols : Headers) : ℕ → List (List Cell) → List Row
  | _, [] => []
  | i, v :: vs => Row.mk i v cols :: rowsOfGo cols (i + 1) vs

/-- Data::rows() as a list. -/
def Data.rowsL (d : Data) : List Row := rowsOfGo d.cols 0 d.rows

/-- solve.rs Fit: the result record of fit. -/
structure Fit where
  parameter_names : List String
  parameter_values : List F64
  n : ℕ
  xerrs : List F64
  rmsr : F64
  rsq : F64
  tvals : List F64
deriving DecidableEq

/-- The Equation trait of expr/mod.rs (the parse constructor is provided by
the implementation, here by Eqn.parse below). -/
structure Equation where
  params_len : ℕ
  solve : List F64 → Row → Option F64
  expr : Option String
  params : List String
  vars : List String

/-- The rmpfit optimiser at its interface: mpfit updates the parameter buffer
in place (so the fitted vector has the initial vector's length) and returns a
status whose xerror vector has one entry per parameter. -/
structure Optimizer where
  run : List F64 → Except MPError (List F64 × List F64)
  len_params : ∀ p out, run p = Except.ok out → out.1.length = p.length
  len_xerror : ∀ p out, run p = Except.ok out → out.2.length = p.length

/-! ## expr/v1.rs: the version-1 equation resolver over meval -/

/-- meval's Operation (Plus, Minus, Times, Div, Rem, Pow). -/
inductive Operation where
  | plus
  | minus
  | times
  | div
  | rem
  | pow
deriving DecidableEq

/-- meval's Token.  An meval Expr dereferences to its RPN token stream; every
occurrence of an identifier in the formula appears as a var token. -/
inductive Token where
  | var (n : String)
  | number (x : Q)
  | binary (op : Operation)
  | unary (op : Operation)
  | func (name : String) (nargs : Option ℕ)
deriving DecidableEq

/-- meval's Expr: the parsed formula in RPN form. -/
abbrev Expr := List Token

/-- Context::get_var on the context built by v1.rs ctx(): the default meval
context's constants are pi and e (the functions live in a separate table and
are not returned by get_var). -/
def ctxGetVar (n : String) : Bool := n == "pi" || n == "e"

/-- The function names resolvable in the v1.rs ctx() context: meval's default
functions plus the added log (base 10). -/
def ctxFuncs : List String :=
  ["sqrt", "exp", "ln", "log10", "abs", "floor", "ceil", "round", "signum",
   "sin", "cos", "tan", "asin", "acos", "atan", "sinh", "cosh", "tanh",
   "atan2", "max", "min", "log"]

/-- Whether a function name resolves in the v1.rs context. -/
def ctxHasFunc (n : String) : Bool := ctxFuncs.contains n

/-- The resolution check meval's bindn_with_context performs: every var token
must be a context constant or one of the supplied names, and every function
token must resolve in the context. -/
def checkContext (e : Expr) (names : List String) : Bool :=
  e.all (fun t =>
    match t with
    | Token.var n => ctxGetVar n || names.contains n
    | Token.func f _ => ctxHasFunc f
    | _ => true)

/-- meval's Expr::bindn_with_context, with the produced evaluator abstracted
as the parameter F (its numeric behaviour is irrelevant to every claim). -/
def bindnWithContext (F : Expr → List String → (List F64 → F64))
    (e : Expr) (names : List String) : Except String (List F64 → F64) :=
  if checkContext e names then Except.ok (F e names) else Except.error "binding failed"

/-- v1.rs Eq (named Eqn here because Eq is Lean's equality): column-bound
variables, free parameters, the parsed expression and its text. -/
structure Eqn where
  vars : List (String × ℕ)
  params : List String
  expr : Expr
  estr : String
deriving DecidableEq

/-- Eq::build_inputs: the parameter names followed by the variable names. -/
def Eqn.build_inputs (e : Eqn) : List String :=
  e.params ++ e.vars.map Prod.fst

/-- The classification loop of Eq::parse: for every var token of the RPN
stream, skip context constants, push a (name, column) pair when the name
matches a header (case- and whitespace-insensitively), push a parameter name
otherwise. -/
def classifyTokens (columns : Headers) (e : Expr) : List (String × ℕ) × List String :=
  e.foldl
    (fun acc t =>
      match t with
      | Token.var n =>
        if ctxGetVar n then acc
        else
          match columns.findIgnoreCaseAndWs n with
          | some i => (acc.1 ++ [(n, i)], acc.2)
          | none => (acc.1, acc.2 ++ [n])
      | _ => acc)
    ([], [])

/-- Eq::parse, taking the RPN stream meval produced for the formula text:
classify the identifiers, then do the trial bind against the collected names
(an error there is wrapped with the expression text). -/
def Eqn.parse (F : Expr → List String → (List F64 → F64))
    (estr : String) (rpn : Expr) (columns : Headers) : Except String Eqn :=
  let vp := classifyTokens columns rpn
  let x : Eqn := ⟨vp.1, vp.2, rpn, estr⟩
  match bindnWithContext F rpn x.build_inputs with
  | Except.error e => Except.error ("in expr: " ++ x.estr ++ ": " ++ e)
  | Except.ok _ => Except.ok x

/-- Eq::params_len. -/
def Eqn.params_len (e : Eqn) : ℕ := e.params.length

/-- Option-valued per-element traversal mirroring the short-circuiting loops
(`?` inside for / try_fold) used throughout the source. -/
def mapO (f : α → Option β) : List α → Option (List β)
  | [] => some []
  | a :: as =>
    match f a with
    | none => none
    | some b =>
      match mapO f as with
      | none => none
      | some bs => some (b :: bs)

/-- Eq::solve: bind the expression (a failure yields None), then build the
input vector as the parameters followed by the bound columns' cell values
(None on a missing column or a text cell), then evaluate. -/
def Eqn.solve (F : Expr → List String → (List F64 → F64))
    (e : Eqn) (ps : List F64) (row : Row) : Option F64 :=
  match bindnWithContext F e.expr e.build_inputs with
  | Except.error _ => none
  | Except.ok f =>
    match mapO (fun v =>
        match row.getNum v.2 with
        | some (Except.ok q) => some (F64.fin q)
        | _ => none) e.vars with
    | none => none
    | some varVals => some (f (ps ++ varVals))

/-- Eq::params. -/
def Eqn.paramNames (e : Eqn) : List String := e.params

/-- Eq::vars (the variable names, without their column indices). -/
def Eqn.varNames (e : Eqn) : List String := e.vars.map Prod.fst

/-! ## solve.rs: the fitting pipeline -/

/-- The probe test of guess_params: the equation solves to a finite value on
the row (unwrap_or_default makes None count as false). -/
def finiteProbe (eq : Equation) (ps : List F64) (r : Row) : Bool :=
  ((eq.solve ps r).map F64.isFinite).getD false

/-- solve.rs guess_params: probe the first row with all-zeros, all-ones,
all-0.5 and the index vector, returning the first finite-solving candidate. -/
def guess_params (data : Data) (eq : Equation) : Option (List F64) :=
  match data.rowsL.head? with
  | none => none
  | some r =>
    let ps0 := List.replicate eq.params_len (F64.fin 0)
    if finiteProbe eq ps0 r then some ps0
    else
      let ps1 := List.replicate eq.params_len (F64.fin 1)
      if finiteProbe eq ps1 r then some ps1
      else
        let ps2 := List.replicate eq.params_len (F64.fin (1 / 2))
        if finiteProbe eq ps2 r then some ps2
        else
          let ps3 := (List.range eq.params_len).map (fun (i : ℕ) => F64.fin (Q.ofInt i))
          if finiteProbe eq ps3 r then some ps3 else none

/-- The initial parameter vector fit passes to the optimiser:
guess_params(..).unwrap_or_else(|| vec![0.1; eq.params_len()]). -/
def initial_params (data : Data) (eq : Equation) : List F64 :=
  (guess_params data eq).getD (List.replicate eq.params_len (F64.fin (1 / 10)))

/-- The chk_col loop of ensure_float_values_in_data over the rows. -/
def chkColGo (c : ℕ) : List Row → Except FitErr Unit
  | [] => Except.ok ()
  | r :: rs =>
    match r.getNum c with
    | none => Except.error (FitErr.colIdxNotInTable c)
    | some (Except.error e) => Except.error e
    | some (Except.ok _) => chkColGo c rs

/-- solve.rs chk_col. -/
def chk_col (d : Data) (c : ℕ) : Except FitErr Unit := chkColGo c d.rowsL

/-- The per-variable loop of ensure_float_values_in_data: resolve each
variable name against the headers and check its column. -/
def ensureVarsGo (d : Data) : List String → Except FitErr Unit
  | [] => Except.ok ()
  | p :: ps =>
    match d.cols.findIgnoreCaseAndWs p with
    | none => Except.error (FitErr.colNotFound p)
    | some c =>
      match chk_col d c with
      | Except.error e => Except.error e
      | Except.ok _ => ensureVarsGo d ps

/-- solve.rs ensure_float_values_in_data: the target column first, then every
column bound by a model variable. -/
def ensure_float_values_in_data (eq : Equation) (d : Data) (tgt : ℕ) :
    Except FitErr Unit :=
  match chk_col d tgt with
  | Except.error e => Except.error e
  | Except.ok _ => ensureVarsGo d eq.vars

/-- solve.rs Fitter. -/
structure Fitter where
  data : Data
  eq : Equation
  tgt : ℕ

/-- The row loop of Fitter::eval.  A None from solve aborts with MPError::Eval;
a non-finite solved value writes the 1e13 sentinel; otherwise the residual is
the target value minus the solved value (the unwraps on get_num are a panic,
modelled as the outer none). -/
def evalGo (eq : Equation) (tgt : ℕ) (ps : List F64) :
    List Row → Option (Except MPError (List F64))
  | [] => some (Except.ok [])
  | r :: rs =>
    match eq.solve ps r with
    | none => some (Except.error MPError.eval)
    | some f =>
      if f.isFinite then
        match r.getNum tgt with
        | some (Except.ok y) =>
          match evalGo eq tgt ps rs with
          | some (Except.ok ds) => some (Except.ok ((F64.fin y - f) :: ds))
          | x => x
        | _ => none
      else
        match evalGo eq tgt ps rs with
        | some (Except.ok ds) => some (Except.ok (F64.fin 10000000000000 :: ds))
        | x => x

/-- Fitter::eval (MPFitter impl in solve.rs). -/
def Fitter.eval (ft : Fitter) (ps : List F64) : Option (Except MPError (List F64)) :=
  evalGo ft.eq ft.tgt ps ft.data.rowsL

/-- The target-column read of the statistics block (get_num + two expects;
the outer none is the panic, impossible after validation). -/
def observedVals (d : Data) (tgt : ℕ) : Option (List Q) :=
  mapO (fun r =>
    match r.getNum tgt with
    | some (Except.ok q) => some q
    | _ => none) d.rowsL

/-- The y-prediction pass of the statistics block: solve every row with the
fitted parameters, collecting into a vector (try_fold over Option). -/
def ypredOf (eq : Equation) (d : Data) (ps : List F64) : Option (List F64) :=
  mapO (fun r => eq.solve ps r) d.rowsL

/-- The statistics block of solve.rs fit (lines 152-227): the mean of the
target, the predictions, dfr, ssr, sse, rmsr, raw and adjusted R², the
standard errors scaled from the optimiser's xerror, the t-values, and the
assembled Fit record. -/
def summarize (sqrtF : Q → F64) (eq : Equation) (d : Data) (tgt : ℕ)
    (fitted : List F64) (xerror : List F64) : Option (Except FitErr Fit) :=
  let n : Q := Q.ofInt d.rows.length
  let k : Q := Q.ofInt fitted.length
  match observedVals d tgt with
  | none => none
  | some ys =>
    let mean_y : F64 := listSum (ys.map F64.fin) / F64.fin n
    match ypredOf eq d fitted with
    | none => some (Except.error FitErr.summaryEval)
    | some y_pred =>
      let dfr : F64 := F64.fin n - F64.fin k - F64.fin 1
      let ssr : F64 := listSum ((ys.zip y_pred).map (fun yy => sq (F64.fin yy.1 - yy.2)))
      let sse : F64 := listSum (y_pred.map (fun y => sq (y - mean_y)))
      let rmsr : F64 := sqrtV sqrtF (ssr / dfr)
      let sst : F64 := sse + ssr
      let rsq : F64 := F64.fin 1 - ssr / sst
      let rsq2 : F64 := F64.fin 1 - (F64.fin 1 - rsq) * (F64.fin n - F64.fin 1) / dfr
      let xerrs : List F64 := xerror.map (fun x => x * rmsr)
      let tvals : List F64 := (fitted.zip xerrs).map (fun ce => ce.1 / ce.2)
      some (Except.ok ⟨eq.params, fitted, d.rows.length, xerrs, rmsr, rsq2, tvals⟩)

/-- solve.rs fit: resolve the target column, validate the referenced columns,
guess a starting vector, reject zero parameters, run the optimiser, then
compute the statistics. -/
def fit (sqrtF : Q → F64) (opt : Optimizer) (eq : Equation) (d : Data)
    (target : String) : Option (Except FitErr Fit) :=
  match d.cols.findIgnoreCaseAndWs target with
  | none => some (Except.error (FitErr.colNotFound target))
  | some tgt =>
    match ensure_float_values_in_data eq d tgt with
    | Except.error e => some (Except.error e)
    | Except.ok _ =>
      let params := initial_params d eq
      if params.isEmpty then some (Except.error (FitErr.zeroParams eq.expr))
      else
        match opt.run params with
        | Except.error e => some (Except.error (FitErr.solveFailed e))
        | Except.ok st => summarize sqrtF eq d tgt st.1 st.2

/-! ## Fixtures for concrete evaluations

A trivial meval evaluator, an unspecified finite square root, and a trivial
optimiser; the claims proved below never depend on their numeric behaviour. -/

/-- A concrete stand-in for the abstracted meval evaluator. -/
def evalStub : Expr → List String → (List F64 → F64) := fun _ _ _ => F64.fin 0

/-- A concrete stand-in for the unspecified finite square root. -/
def sqrtStub : Q → F64 := fun _ => F64.nan

/-- A trivial optimiser: returns the initial vector unchanged with unit
xerror entries (a legitimate inhabitant of the rmpfit contract). -/
def optId : Optimizer :=
  ⟨fun p => Except.ok (p, List.replicate p.length (F64.fin 1)),
   by intro p out h; cases h; rfl,
   by intro p out h; cases h; simp⟩

/-! ## Inputs for the parse claims (C1, C2) -/

/-- meval RPN of the formula of the repo test distinct_params_and_vars. -/
def rpnXXDD : Expr :=
  [Token.var "x", Token.var "x", Token.binary Operation.times,
   Token.var "d", Token.binary Operation.plus,
   Token.var "d", Token.binary Operation.plus]

/-- The header set of the repo test distinct_params_and_vars. -/
def headersD : Headers := ⟨["d"]⟩

/-- meval RPN of a formula with one parameter occurring twice. -/
def rpnXX : Expr := [Token.var "x", Token.var "x", Token.binary Operation.times]

/-- meval RPN of the formula of the fit doc example. -/
def rpnMXC : Expr :=
  [Token.var "m", Token.var "x", Token.binary Operation.times,
   Token.var "c", Token.binary Operation.plus]

/-- The header set of the fit doc example. -/
def headersYX : Headers := ⟨["y", "x"]⟩

/-- C1: the claim says parsing yields duplicate-free, disjoint parameter and
variable lists whose union is the set of non-built-in free identifiers, and
in particular that parsing "x * x + d + d" against headers containing only d
yields params = [x] and vars = [d].  The classification loop of Eq::parse
(src/expr/v1.rs lines 52-65) instead pushes one entry per var-token
occurrence of the RPN stream, so this very input produces params = [x, x]
and vars = [d, d] — violating the claim and the repository's own test
distinct_params_and_vars (src/expr/mod.rs lines 33-43), which asserts
params = [x] and vars = [d]. -/
theorem c1_parse_duplicate_identifiers :
    Eqn.parse evalStub "x * x + d + d" rpnXXDD headersD =
      Except.ok ⟨[("d", 0), ("d", 0)], ["x", "x"], rpnXXDD, "x * x + d + d"⟩ ∧
    (["x", "x"] : List String) ≠ ["x"] ∧
    ([("d", 0), ("d", 0)] : List (String × ℕ)) ≠ [("d", 0)] := by
  refine ⟨by rfl, by simp, by simp⟩

/-- C2: the claim says params() lists each free parameter once, in
first-occurrence order, as the authoritative order of the fitted vector.
The classification loop of Eq::parse pushes one entry per occurrence, so a
repeated parameter appears repeatedly: "x * x" yields params = [x, x], not
[x].  Moreover, for the doc example formula "m * x + c" over headers [y, x]
the code produces params = [m, c], while the repository's own doc example
(src/solve.rs line 113) and CLI tests assert parameter_names = [c, m] — the
code contradicts its own documentation and tests. -/
theorem c2_params_per_occurrence :
    Eqn.parse evalStub "x * x" rpnXX headersD =
      Except.ok ⟨[], ["x", "x"], rpnXX, "x * x"⟩ ∧
    Eqn.parse evalStub "m * x + c" rpnMXC headersYX =
      Except.ok ⟨[("x", 1)], ["m", "c"], rpnMXC, "m * x + c"⟩ ∧
    (["m", "c"] : List String) ≠ ["c", "m"] := by
  refine ⟨by rfl, by rfl, by simp⟩

/-! ## Helper lemmas -/

/-- Dividing any idealised f64 by a zero-valued finite f64 and taking the
square root never produces a finite value: the quotient is ±infinity or NaN,
and sqrt maps all three non-finite values to infinity or NaN. -/
lemma sqrtV_div_fin_zero_not_finite (sqrtF : Q → F64) (v : F64) (b : Q)
    (hb : b.isZero) : (sqrtV sqrtF (v / F64.fin b)).isFinite = false := by
  cases v with
  | fin a =>
    show (sqrtV sqrtF (F64.div (F64.fin a) (F64.fin b))).isFinite = false
    simp only [F64.div, if_pos hb]
    split_ifs <;> rfl
  | inf =>
    show (sqrtV sqrtF (F64.div F64.inf (F64.fin b))).isFinite = false
    simp only [F64.div]
    split_ifs <;> rfl
  | ninf =>
    show (sqrtV sqrtF (F64.div F64.ninf (F64.fin b))).isFinite = false
    simp only [F64.div]
    split_ifs <;> rfl
  | nan => rfl

/-- The initial parameter vector always has the equation's parameter count:
every guess_params candidate is a replicate or an index range of that length,
and so is the 0.1 fallback. -/
lemma initial_params_length (d : Data) (eq : Equation) :
    (initial_params d eq).length = eq.params_len := by
  unfold initial_params guess_params
  cases h : d.rowsL.head? with
  | none => simp
  | some r =>
    simp only [h]
    split_ifs <;>
      simp only [Option.getD_some, Option.getD_none, List.length_replicate,
        List.length_map, List.length_range]

/-! ## C3 -/

/-- A one-parameter equation solving to its parameter value, for exercising
the statistics block. -/
def eqLin : Equation := ⟨1, fun ps _ => ps.head?, some "p", ["p"], []⟩

/-- Two observations: with one parameter, dfr = 2 - 1 - 1 = 0. -/
def dataC3 : Data := ⟨⟨["y"]⟩, [[Cell.num 0], [Cell.num 1]]⟩

/-- C3 counterexample: with n = 2 observations and k = 1 parameter (so
dfr = 0), fit does not report any degenerate-statistics error — no such
error exists in solve.rs — and instead returns a Fit whose rmsr is infinite
(and whose adjusted R² is -infinity), refuting the claim at this input. -/
theorem c3_counterexample :
    fit sqrtStub optId eqLin dataC3 "y" =
      some (Except.ok
        ⟨["p"], [F64.fin 0], 2, [F64.inf], F64.inf, F64.ninf, [F64.fin 0]⟩) ∧
    F64.isFinite F64.inf = false := ⟨rfl, rfl⟩

/-- Multiplying any idealised f64 by a non-finite one never produces a
finite value (a finite factor gives a signed infinity or, for zero, NaN; NaN
propagates). -/
lemma mul_not_finite_right (v r : F64) (hr : r.isFinite = false) :
    (v * r).isFinite = false := by
  cases r with
  | fin q => simp [F64.isFinite] at hr
  | inf =>
    cases v with
    | fin a =>
      show (F64.mul (F64.fin a) F64.inf).isFinite = false
      simp only [F64.mul]
      split_ifs <;> rfl
    | inf => rfl
    | ninf => rfl
    | nan => rfl
  | ninf =>
    cases v with
    | fin a =>
      show (F64.mul (F64.fin a) F64.ninf).isFinite = false
      simp only [F64.mul]
      split_ifs <;> rfl
    | inf => rfl
    | ninf => rfl
    | nan => rfl
  | nan => cases v <;> rfl

/-- C3 amended: the statistics block of fit (src/solve.rs lines 154-216)
performs no degrees-of-freedom check and has no degenerate-statistics error;
whenever it returns a Fit with n = k + 1 (dfr = 0), that Fit's rmsr is
non-finite (infinity or NaN), and so is every standard error (each being the
solver's uncertainty multiplied by the non-finite rmsr).  The t-values need
not be non-finite: a finite fitted value divided by an infinite standard
error is zero. -/
theorem c3_no_degenerate_check (sqrtF : Q → F64) (eq : Equation) (d : Data)
    (tgt : ℕ) (fitted xerror : List F64) (f : Fit)
    (hfit : summarize sqrtF eq d tgt fitted xerror = some (Except.ok f))
    (hdfr : d.rows.length = fitted.length + 1) :
    f.rmsr.isFinite = false ∧ ∀ x ∈ f.xerrs, x.isFinite = false := by
  simp only [summarize] at hfit
  cases hobs : observedVals d tgt with
  | none => rw [hobs] at hfit; simp at hfit
  | some ys =>
    rw [hobs] at hfit
    cases hyp : ypredOf eq d fitted with
    | none => rw [hyp] at hfit; simp at hfit
    | some y_pred =>
      rw [hyp] at hfit
      simp only [Option.some.injEq, Except.ok.injEq] at hfit
      subst hfit
      have hsub :
          F64.fin (Q.ofInt d.rows.length) - F64.fin (Q.ofInt fitted.length) -
              F64.fin 1 =
            F64.fin (Q.ofInt d.rows.length - Q.ofInt fitted.length - 1) := rfl
      have hz : (Q.ofInt d.rows.length - Q.ofInt fitted.length - (1 : Q)).num = 0 := by
        rw [hdfr]
        show (((fitted.length + 1 : ℕ) : ℤ) * 1 - (fitted.length : ℤ) * 1) * 1 -
          1 * (1 * 1) = 0
        omega
      have hrm : (sqrtV sqrtF
          (listSum ((ys.zip y_pred).map (fun yy => sq (F64.fin yy.1 - yy.2))) /
            (F64.fin (Q.ofInt d.rows.length) - F64.fin (Q.ofInt fitted.length) -
              F64.fin 1))).isFinite = false := by
        rw [hsub]
        exact sqrtV_div_fin_zero_not_finite sqrtF _ _ hz
      refine ⟨hrm, ?_⟩
      intro x hx
      obtain ⟨x0, hx0, rfl⟩ := List.mem_map.mp hx
      exact mul_not_finite_right x0 _ hrm

/-- C3 witness: the amended theorem applied at the concrete degenerate input
(two rows, one parameter), where the returned rmsr and the standard error
are both infinite. -/
theorem c3_no_degenerate_check_witness :
    F64.isFinite
      (Fit.rmsr
        ⟨["p"], [F64.fin 0], 2, [F64.inf], F64.inf, F64.ninf, [F64.fin 0]⟩) = false ∧
    ∀ x ∈ Fit.xerrs
        ⟨["p"], [F64.fin 0], 2, [F64.inf], F64.inf, F64.ninf, [F64.fin 0]⟩,
      F64.isFinite x = false :=
  c3_no_degenerate_check sqrtStub eqLin dataC3 0 [F64.fin 0] [F64.fin 1]
    ⟨["p"], [F64.fin 0], 2, [F64.inf], F64.inf, F64.ninf, [F64.fin 0]⟩
    (by rfl) (by rfl)

/-! ## C4 -/

/-- A zero-parameter equation (every identifier matched a column), with the
formula text 2 * x exposed, as in the repo test zero_params. -/
def eqZ : Equation := ⟨0, fun _ _ => none, some "2 * x", [], []⟩

/-- A dataset whose target column holds a text cell. -/
def dataTxt : Data := ⟨⟨["y"]⟩, [[Cell.txt "foo"]]⟩

/-- C4 counterexample: the claim quantifies over every dataset, but the
data-validation pass of fit runs before the zero-parameter check, so a
zero-parameter equation over a dataset with a text cell in the target column
yields the non-numeric-cell error, not the zero-parameters error. -/
theorem c4_counterexample :
    fit sqrtStub optId eqZ dataTxt "y" =
      some (Except.error (FitErr.nonNumeric 1 0 "foo")) ∧
    fit sqrtStub optId eqZ dataTxt "y" ≠
      some (Except.error (FitErr.zeroParams (some "2 * x"))) := by
  have h1 : fit sqrtStub optId eqZ dataTxt "y" =
      some (Except.error (FitErr.nonNumeric 1 0 "foo")) := rfl
  exact ⟨h1, by rw [h1]; simp⟩

/-- C4 amended: for every equation with zero free parameters, whenever the
target column resolves and the data-validation pass succeeds (no text cell in
any referenced column), fit returns the zero-parameters error carrying the
original formula text, for every optimiser — the optimiser is never
consulted. -/
theorem c4_zero_params (sqrtF : Q → F64) (opt : Optimizer) (eq : Equation)
    (d : Data) (target : String) (tgt : ℕ) (s : String)
    (h0 : eq.params_len = 0) (hex : eq.expr = some s)
    (hfind : d.cols.findIgnoreCaseAndWs target = some tgt)
    (hok : ensure_float_values_in_data eq d tgt = Except.ok ()) :
    fit sqrtF opt eq d target = some (Except.error (FitErr.zeroParams (some s))) := by
  have hnil : initial_params d eq = [] :=
    List.length_eq_zero.mp (by rw [initial_params_length, h0])
  simp only [fit, hfind, hok, hnil, hex, List.isEmpty_nil, if_true]

/-- A one-row all-numeric dataset for the C4 witness. -/
def dataNum : Data := ⟨⟨["y"]⟩, [[Cell.num 1]]⟩

/-- C4 witness: the amended theorem applied at a concrete zero-parameter
equation over valid data. -/
theorem c4_zero_params_witness :
    fit sqrtStub optId eqZ dataNum "y" =
      some (Except.error (FitErr.zeroParams (some "2 * x"))) :=
  c4_zero_params sqrtStub optId eqZ dataNum "y" 0 "2 * x" rfl rfl (by rfl) (by rfl)

/-! ## C6 -/

/-- Modelled from the spec (C6): the probe candidates, in the order the spec
lists them — all-zeros, all-ones, all-0.5, the index sequence. -/
def specCandidates (k : ℕ) : List (List F64) :=
  [List.replicate k (F64.fin 0), List.replicate k (F64.fin 1),
   List.replicate k (F64.fin (1 / 2)),
   (List.range k).map (fun (i : ℕ) => F64.fin (Q.ofInt i))]

/-- Modelled from the spec (C6): the starting vector is the first candidate
producing a finite evaluation against the first row; if none does, or the
dataset has no rows, the all-0.1 vector. -/
def specStartingPoint (data : Data) (eq : Equation) : List F64 :=
  match data.rowsL.head? with
  | none => List.replicate eq.params_len (F64.fin (1 / 10))
  | some r =>
    ((specCandidates eq.params_len).find? (fun c => finiteProbe eq c r)).getD
      (List.replicate eq.params_len (F64.fin (1 / 10)))

/-- C6: the starting vector fit hands to the optimiser (guess_params with its
0.1 fallback) is exactly the spec's probe sequence: the first of all-zeros,
all-ones, all-0.5 and the index vector to solve the first row to a finite
value, with the all-0.1 vector when none does or when there are no rows. -/
theorem c6_starting_point (data : Data) (eq : Equation) :
    initial_params data eq = specStartingPoint data eq := by
  unfold initial_params guess_params specStartingPoint specCandidates
  cases h : data.rowsL.head? with
  | none => simp
  | some r =>
    simp only [h]
    split_ifs with h0 h1 h2 h3 <;> simp_all [List.find?_cons]

/-! ## C7 -/

/-- The target value of a row (total version of the get_num unwraps; the
default is never reached under the claim's all-numeric hypothesis). -/
def targetValD (r : Row) (tgt : ℕ) : Q :=
  match r.getNum tgt with
  | some (Except.ok q) => q
  | _ => 0

/-- Modelled from the spec (C7): a row's residual is the target value minus
the solved value when that is finite, and the large fixed sentinel magnitude
1e13 when it is non-finite (the None case is excluded by specResiduals). -/
def specResidual (eq : Equation) (tgt : ℕ) (ps : List F64) (r : Row) : F64 :=
  match eq.solve ps r with
  | none => F64.fin 0
  | some f =>
    if f.isFinite then F64.fin (targetValD r tgt) - f else F64.fin 10000000000000

/-- Modelled from the spec (C7): the whole evaluation fails with Eval when
model.solve returns None on any row, and otherwise produces the per-row
residuals. -/
def specResiduals (eq : Equation) (d : Data) (tgt : ℕ) (ps : List F64) :
    Except MPError (List F64) :=
  if d.rowsL.any (fun r => (eq.solve ps r).isNone) then Except.error MPError.eval
  else Except.ok (d.rowsL.map (specResidual eq tgt ps))

/-- The row-loop of Fitter::eval matches the spec's description of the
residual vector, by induction over the rows. -/
lemma evalGo_spec (eq : Equation) (tgt : ℕ) (ps : List F64) (rows : List Row)
    (h : ∀ r ∈ rows, ∃ q, r.getNum tgt = some (Except.ok q)) :
    evalGo eq tgt ps rows =
      some (if rows.any (fun r => (eq.solve ps r).isNone)
        then Except.error MPError.eval
        else Except.ok (rows.map (specResidual eq tgt ps))) := by
  induction rows with
  | nil => simp [evalGo]
  | cons r rs ih =>
    obtain ⟨q, hq⟩ := h r (by simp)
    have ih2 := ih (fun x hx => h x (by simp [hx]))
    cases hs : eq.solve ps r with
    | none => simp [evalGo, hs]
    | some f =>
      by_cases hf : f.isFinite
      · by_cases hA : rs.any (fun r => (eq.solve ps r).isNone)
        · rw [hA, if_pos rfl] at ih2
          simp [evalGo, hs, hf, hq, ih2, hA]
        · rw [if_neg (by simp [hA])] at ih2
          simp [evalGo, hs, hf, hq, ih2, hA, specResidual, targetValD]
      · by_cases hA : rs.any (fun r => (eq.solve ps r).isNone)
        · rw [hA, if_pos rfl] at ih2
          simp [evalGo, hs, hf, ih2, hA]
        · rw [if_neg (by simp [hA])] at ih2
          simp [evalGo, hs, hf, ih2, hA, specResidual]

/-- C7: whenever every row's target cell is numeric (which fit has validated
before the optimiser runs), Fitter::eval evaluates without panicking, and:
if model.solve returns None on any row the evaluation fails with
MPError::Eval; otherwise each row's residual is the target value minus the
solved value when that is finite, and the fixed sentinel 1e13 when it is
non-finite — NaN and infinity are never propagated into a residual. -/
theorem c7_eval_residuals (ft : Fitter) (ps : List F64)
    (h : ∀ r ∈ ft.data.rowsL, ∃ q, r.getNum ft.tgt = some (Except.ok q)) :
    ft.eval ps = some (specResiduals ft.eq ft.data ft.tgt ps) := by
  unfold Fitter.eval specResiduals
  exact evalGo_spec ft.eq ft.tgt ps ft.data.rowsL h

/-- A one-row dataset and a fitter over it for the C7 witness. -/
def ftW : Fitter := ⟨⟨⟨["y"]⟩, [[Cell.num 5]]⟩, eqLin, 0⟩

/-- C7 witness: the theorem applied to a concrete fitter whose target column
is numeric. -/
theorem c7_eval_residuals_witness :
    ftW.eval [F64.fin 2] = some (specResiduals ftW.eq ftW.data ftW.tgt [F64.fin 2]) :=
  c7_eval_residuals ftW [F64.fin 2]
    (by
      intro r hr
      simp only [ftW, Data.rowsL, rowsOfGo, List.mem_cons, List.not_mem_nil,
        or_false] at hr
      subst hr
      exact ⟨5, rfl⟩)

/-! ## C9 -/

/-- A traversal returning none at some member is none overall. -/
lemma mapO_eq_none_of_mem {α β : Type} {f : α → Option β} {l : List α} {x : α}
    (hx : x ∈ l) (hf : f x = none) : mapO f l = none := by
  induction l with
  | nil => cases hx
  | cons a as ih =>
    rcases List.mem_cons.mp hx with rfl | hmem
    · simp [mapO, hf]
    · cases ha : f a with
      | none => simp [mapO, ha]
      | some b => simp [mapO, ha, ih hmem]

/-- C9: Eq::solve returns None whenever the cell at the column index bound to
one of the equation's variables is a text cell in the given row — whatever
the parameters, the meval evaluator, and the rest of the row.  (If the trial
bind fails, solve is already None before reading any cell.) -/
theorem c9_solve_none_on_text (F : Expr → List String → (List F64 → F64))
    (e : Eqn) (ps : List F64) (row : Row) (nm : String) (c : ℕ) (s : String)
    (hv : (nm, c) ∈ e.vars) (hc : row.vals.get? c = some (Cell.txt s)) :
    e.solve F ps row = none := by
  unfold Eqn.solve
  cases hb : bindnWithContext F e.expr e.build_inputs with
  | error e2 => rfl
  | ok f =>
    have hcell : (fun (v : String × ℕ) =>
        match row.getNum v.2 with
        | some (Except.ok q) => some (F64.fin q)
        | _ => none) (nm, c) = none := by
      show (match row.getNum c with
        | some (Except.ok q) => some (F64.fin q)
        | _ => none) = none
      unfold Row.getNum
      rw [hc]
      rfl
    rw [mapO_eq_none_of_mem hv hcell]

/-- A one-variable equation bound to column 0 for the C9 witness. -/
def eqnW : Eqn := ⟨[("z", 0)], ["p"], [Token.var "p", Token.var "z",
  Token.binary Operation.times], "p * z"⟩

/-- A row whose column 0 is text, for the C9 witness. -/
def rowW : Row := ⟨0, [Cell.txt "oops"], ⟨["z"]⟩⟩

/-- C9 witness: the theorem applied to a concrete equation and row. -/
theorem c9_solve_none_on_text_witness :
    eqnW.solve evalStub [F64.fin 3] rowW = none :=
  c9_solve_none_on_text evalStub eqnW [F64.fin 3] rowW "z" 0 "oops"
    (by simp [eqnW]) (by rfl)

/-! ## C10 -/

/-- C10: every Fit a successful call to fit produces has parameter_names,
parameter_values, xerrs and tvals all of length params_len() (stated for any
equation whose params list agrees with its params_len, as Eq guarantees
definitionally): the names come from eq.params, the values from the
optimiser's in-place buffer seeded with a params_len-sized guess, the xerrs
from the per-parameter xerror vector, and the tvals from zipping the two. -/
theorem c10_fit_lengths (sqrtF : Q → F64) (opt : Optimizer) (eq : Equation)
    (d : Data) (target : String) (f : Fit)
    (hnames : eq.params.length = eq.params_len)
    (hfit : fit sqrtF opt eq d target = some (Except.ok f)) :
    f.parameter_names.length = eq.params_len ∧
    f.parameter_values.length = eq.params_len ∧
    f.xerrs.length = eq.params_len ∧
    f.tvals.length = eq.params_len := by
  cases hfind : d.cols.findIgnoreCaseAndWs target with
  | none => simp [fit, hfind] at hfit
  | some tgt =>
    cases hens : ensure_float_values_in_data eq d tgt with
    | error e => simp [fit, hfind, hens] at hfit
    | ok u =>
      by_cases hemp : (initial_params d eq).isEmpty
      · simp [fit, hfind, hens, hemp] at hfit
      · cases hrun : opt.run (initial_params d eq) with
        | error e => simp [fit, hfind, hens, hemp, hrun] at hfit
        | ok st =>
          simp only [fit, hfind, hens, hemp, hrun, Bool.false_eq_true,
            if_false] at hfit
          have hklen : st.1.length = eq.params_len := by
            rw [opt.len_params _ _ hrun, initial_params_length]
          have hxlen : st.2.length = eq.params_len := by
            rw [opt.len_xerror _ _ hrun, initial_params_length]
          simp only [summarize] at hfit
          cases hobs : observedVals d tgt with
          | none => rw [hobs] at hfit; simp at hfit
          | some ys =>
            rw [hobs] at hfit
            cases hyp : ypredOf eq d st.1 with
            | none => rw [hyp] at hfit; simp at hfit
            | some y_pred =>
              rw [hyp] at hfit
              simp only [Option.some.injEq, Except.ok.injEq] at hfit
              subst hfit
              refine ⟨hnames, hklen, ?_, ?_⟩
              · simp [List.length_map, hxlen]
              · simp [List.length_map, List.length_zip, hklen, hxlen]

/-- A three-row all-zero dataset for the statistics witnesses. -/
def dataW : Data := ⟨⟨["y"]⟩, [[Cell.num 0], [Cell.num 0], [Cell.num 0]]⟩

/-- C10 witness: the theorem applied to a concrete successful fit. -/
theorem c10_fit_lengths_witness :
    (Fit.parameter_names
        ⟨["p"], [F64.fin 0], 3, [F64.nan], F64.nan, F64.nan, [F64.nan]⟩).length = 1 ∧
    (Fit.parameter_values
        ⟨["p"], [F64.fin 0], 3, [F64.nan], F64.nan, F64.nan, [F64.nan]⟩).length = 1 ∧
    (Fit.xerrs
        ⟨["p"], [F64.fin 0], 3, [F64.nan], F64.nan, F64.nan, [F64.nan]⟩).length = 1 ∧
    (Fit.tvals
        ⟨["p"], [F64.fin 0], 3, [F64.nan], F64.nan, F64.nan, [F64.nan]⟩).length = 1 :=
  c10_fit_lengths sqrtStub optId eqLin dataW "y"
    ⟨["p"], [F64.fin 0], 3, [F64.nan], F64.nan, F64.nan, [F64.nan]⟩ rfl (by rfl)

/-! ## C8 -/

/-- IEEE addition on the idealised f64 is commutative (needed because the
code computes sst as sse + ssr while the claim writes ssr + sse). -/
lemma F64.addCommF64 (a b : F64) : a + b = b + a := by
  cases a <;> cases b <;>
    first
      | rfl
      | exact congrArg F64.fin (Q.addCommQ _ _)

/-- Modelled from the spec (C8): ssr is the sum over rows of
(observed target − predicted)². -/
def ssrSpec (ys : List Q) (ypred : List F64) : F64 :=
  listSum ((ys.zip ypred).map (fun yy => sq (F64.fin yy.1 - yy.2)))

/-- Modelled from the spec (C8): the mean of the target column (its sum
divided by the observation count). -/
def meanSpec (ys : List Q) (n : Q) : F64 :=
  listSum (ys.map F64.fin) / F64.fin n

/-- Modelled from the spec (C8): sse is the sum over rows of
(predicted − mean of target)². -/
def sseSpec (ypred : List F64) (mean : F64) : F64 :=
  listSum (ypred.map (fun y => sq (y - mean)))

/-- C8: for every successful run of the statistics block over observed target
values ys and predictions y_pred, the reported statistics satisfy the claim's
formulas: n is the observation count, the values are the fitted vector,
rmsr = sqrt(ssr / dfr) with dfr = n − k − 1, adjusted
R² = 1 − (1 − (1 − ssr/(ssr+sse)))·(n−1)/dfr, each standard error is the
solver's per-parameter uncertainty times rmsr, and each t-value is the fitted
value divided by its standard error. -/
theorem c8_statistics (sqrtF : Q → F64) (eq : Equation) (d : Data) (tgt : ℕ)
    (fitted xerror : List F64) (f : Fit) (ys : List Q) (y_pred : List F64)
    (hsum : summarize sqrtF eq d tgt fitted xerror = some (Except.ok f))
    (hobs : observedVals d tgt = some ys)
    (hyp : ypredOf eq d fitted = some y_pred) :
    f.n = d.rows.length ∧
    f.parameter_names = eq.params ∧
    f.parameter_values = fitted ∧
    f.rmsr = sqrtV sqrtF (ssrSpec ys y_pred /
      (F64.fin (Q.ofInt d.rows.length) - F64.fin (Q.ofInt fitted.length) -
        F64.fin 1)) ∧
    f.rsq = F64.fin 1 -
      (F64.fin 1 - (F64.fin 1 - ssrSpec ys y_pred /
          (ssrSpec ys y_pred + sseSpec y_pred (meanSpec ys (Q.ofInt d.rows.length))))) *
        (F64.fin (Q.ofInt d.rows.length) - F64.fin 1) /
      (F64.fin (Q.ofInt d.rows.length) - F64.fin (Q.ofInt fitted.length) -
        F64.fin 1) ∧
    f.xerrs = xerror.map (fun x => x * f.rmsr) ∧
    f.tvals = (fitted.zip f.xerrs).map (fun ce => ce.1 / ce.2) := by
  simp only [summarize] at hsum
  rw [hobs, hyp] at hsum
  simp only [Option.some.injEq, Except.ok.injEq] at hsum
  subst hsum
  refine ⟨rfl, rfl, rfl, rfl, ?_, rfl, rfl⟩
  show F64.fin 1 -
      (F64.fin 1 - (F64.fin 1 - ssrSpec ys y_pred /
          (sseSpec y_pred (meanSpec ys (Q.ofInt d.rows.length)) + ssrSpec ys y_pred))) *
        (F64.fin (Q.ofInt d.rows.length) - F64.fin 1) /
      (F64.fin (Q.ofInt d.rows.length) - F64.fin (Q.ofInt fitted.length) -
        F64.fin 1) = _
  rw [F64.addCommF64 (sseSpec y_pred (meanSpec ys (Q.ofInt d.rows.length)))
    (ssrSpec ys y_pred)]

/-- The Fit record the statistics block produces on the all-zero dataset with
fitted vector [0] and xerror [1]. -/
def fitW : Fit := ⟨["p"], [F64.fin 0], 3, [F64.nan], F64.nan, F64.nan, [F64.nan]⟩

/-- C8 witness: the theorem applied at a concrete successful summarize run. -/
theorem c8_statistics_witness :
    fitW.n = dataW.rows.length ∧
    fitW.parameter_names = eqLin.params ∧
    fitW.parameter_values = [F64.fin 0] ∧
    fitW.rmsr = sqrtV sqrtStub (ssrSpec [0, 0, 0] [F64.fin 0, F64.fin 0, F64.fin 0] /
      (F64.fin (Q.ofInt dataW.rows.length) -
        F64.fin (Q.ofInt ([F64.fin 0] : List F64).length) - F64.fin 1)) ∧
    fitW.rsq = F64.fin 1 -
      (F64.fin 1 - (F64.fin 1 - ssrSpec [0, 0, 0] [F64.fin 0, F64.fin 0, F64.fin 0] /
          (ssrSpec [0, 0, 0] [F64.fin 0, F64.fin 0, F64.fin 0] +
            sseSpec [F64.fin 0, F64.fin 0, F64.fin 0]
              (meanSpec [0, 0, 0] (Q.ofInt dataW.rows.length))))) *
        (F64.fin (Q.ofInt dataW.rows.length) - F64.fin 1) /
      (F64.fin (Q.ofInt dataW.rows.length) -
        F64.fin (Q.ofInt ([F64.fin 0] : List F64).length) - F64.fin 1) ∧
    fitW.xerrs = [F64.fin 1].map (fun x => x * fitW.rmsr) ∧
    fitW.tvals = (([F64.fin 0] : List F64).zip fitW.xerrs).map
      (fun ce => ce.1 / ce.2) :=
  c8_statistics sqrtStub eqLin dataW 0 [F64.fin 0] [F64.fin 1] fitW
    [0, 0, 0] [F64.fin 0, F64.fin 0, F64.fin 0] (by rfl) (by rfl) (by rfl)

/-! ## C5 -/

/-- The length-uniformity invariant Data::new establishes: every row has
exactly one cell per header. -/
def Data.wf (d : Data) : Prop :=
  ∀ row ∈ d.rows, row.length = d.cols.names.length

/-- The cell of a dataset at an absolute row and column index. -/
def cellAt (d : Data) (rI c : ℕ) : Option Cell :=
  (d.rows.get? rI).bind (fun row => row.get? c)

/-- A column the model references: the target column or a column some model
variable resolves to. -/
def referencedCol (eq : Equation) (d : Data) (tgt c : ℕ) : Prop :=
  c = tgt ∨ ∃ v ∈ eq.vars, d.cols.findIgnoreCaseAndWs v = some c

/-- A find_match hit is an index into the header list. -/
lemma findMatchGo_lt (p : String → Bool) (l : List String) (i c : ℕ)
    (h : findMatchGo p i l = some c) : c < i + l.length := by
  induction l generalizing i with
  | nil => simp [findMatchGo] at h
  | cons x xs ih =>
    by_cases hp : p x
    · simp only [findMatchGo, if_pos hp, Option.some.injEq] at h
      simp only [List.length_cons]
      omega
    · simp only [findMatchGo, if_neg hp] at h
      have := ih (i + 1) h
      simp only [List.length_cons]
      omega

/-- A find_ignore_case_and_ws hit is an index into the header list. -/
lemma find_lt (h : Headers) (s : String) (c : ℕ)
    (hf : h.findIgnoreCaseAndWs s = some c) : c < h.names.length := by
  have := findMatchGo_lt (fun x => strEqIgnoreCaseAndWs x s) h.names 0 c hf
  omega

/-- The row list positions rows at their own indices. -/
lemma rowsOfGo_get? (cols : Headers) (vs : List (List Cell)) (i j : ℕ) :
    (rowsOfGo cols i vs).get? j =
      (vs.get? j).map (fun v => Row.mk (i + j) v cols) := by
  induction vs generalizing i j with
  | nil => simp [rowsOfGo]
  | cons v vs ih =>
    cases j with
    | zero => simp [rowsOfGo]
    | succ j =>
      simp only [rowsOfGo, List.get?_cons_succ, ih (i + 1) j]
      have : i + 1 + j = i + (j + 1) := by omega
      rw [this]

/-- Data::rows() positions rows at their own indices. -/
lemma rowsL_get? (d : Data) (j : ℕ) :
    d.rowsL.get? j = (d.rows.get? j).map (fun v => Row.mk j v d.cols) := by
  have := rowsOfGo_get? d.cols d.rows 0 j
  simpa using this

/-- A member of the row list carries the cells stored at its index. -/
lemma mem_rowsL_get? (d : Data) (r : Row) (hr : r ∈ d.rowsL) :
    d.rows.get? r.idx = some r.vals := by
  obtain ⟨j, hj⟩ := List.get?_of_mem hr
  rw [rowsL_get? d j] at hj
  cases hv : d.rows.get? j with
  | none => rw [hv] at hj; simp at hj
  | some v =>
    rw [hv] at hj
    simp only [Option.map_some', Option.some.injEq] at hj
    subst hj
    exact hv

/-- A member of the row list stores one of the dataset's rows. -/
lemma mem_rowsL_vals (d : Data) (r : Row) (hr : r ∈ d.rowsL) :
    r.vals ∈ d.rows :=
  List.get?_mem (mem_rowsL_get? d r hr)

/-- Conversely, every stored row appears in the row list at its index. -/
lemma rowsL_mem_of_get? (d : Data) (j : ℕ) (v : List Cell)
    (hv : d.rows.get? j = some v) : Row.mk j v d.cols ∈ d.rowsL := by
  refine List.get?_mem (n := j) ?_
  rw [rowsL_get? d j, hv]
  rfl

/-- In a well-formed dataset, every in-range column index hits a cell of
every row. -/
lemma cell_exists (d : Data) (hwf : d.wf) (r : Row) (hr : r ∈ d.rowsL)
    (c : ℕ) (hc : c < d.cols.names.length) :
    ∃ cell, r.vals.get? c = some cell := by
  have hlen : r.vals.length = d.cols.names.length := hwf _ (mem_rowsL_vals d r hr)
  have hlt : c < r.vals.length := by omega
  exact ⟨r.vals.get ⟨c, hlt⟩, List.get?_eq_get hlt⟩

/-- The chk_col loop either certifies a text-free column or stops at the
first text cell, reporting its (1-based) row index and the column. -/
lemma chkColGo_spec (c : ℕ) (rows : List Row)
    (hin : ∀ r ∈ rows, ∃ cell, r.vals.get? c = some cell) :
    (chkColGo c rows = Except.ok () ∧
      ∀ r ∈ rows, ∀ s, r.vals.get? c ≠ some (Cell.txt s)) ∨
    (∃ r ∈ rows, ∃ s, r.vals.get? c = some (Cell.txt s) ∧
      chkColGo c rows = Except.error (FitErr.nonNumeric (r.idx + 1) c s)) := by
  induction rows with
  | nil => exact Or.inl ⟨rfl, by simp⟩
  | cons r rs ih =>
    obtain ⟨cell, hcell⟩ := hin r (by simp)
    cases cell with
    | num x =>
      have hnum : r.getNum c = some (Except.ok x) := by
        unfold Row.getNum; rw [hcell]; rfl
      rcases ih (fun x hx => hin x (by simp [hx])) with ⟨hok, hns⟩ | ⟨r2, hr2, s, hs, herr⟩
      · refine Or.inl ⟨?_, ?_⟩
        · simp only [chkColGo, hnum]; exact hok
        · intro r2 hr2 s
          rcases List.mem_cons.mp hr2 with rfl | hmem
          · rw [hcell]; simp
          · exact hns r2 hmem s
      · refine Or.inr ⟨r2, by simp [hr2], s, hs, ?_⟩
        simp only [chkColGo, hnum]; exact herr
    | txt s =>
      have htx : r.getNum c =
          some (Except.error (FitErr.nonNumeric (r.idx + 1) c s)) := by
        unfold Row.getNum; rw [hcell]; rfl
      refine Or.inr ⟨r, by simp, s, hcell, ?_⟩
      simp only [chkColGo, htx]

/-- The variable loop of ensure_float_values_in_data either certifies every
bound column text-free or stops inside some bound column at a text cell,
reporting its (1-based) row index and that column. -/
lemma ensureVarsGo_spec (d : Data) (hwf : d.wf) (vars : List String)
    (hres : ∀ v ∈ vars, ∃ c, d.cols.findIgnoreCaseAndWs v = some c) :
    (ensureVarsGo d vars = Except.ok () ∧
      ∀ v ∈ vars, ∀ c, d.cols.findIgnoreCaseAndWs v = some c →
        ∀ r ∈ d.rowsL, ∀ s, r.vals.get? c ≠ some (Cell.txt s)) ∨
    (∃ v ∈ vars, ∃ c, d.cols.findIgnoreCaseAndWs v = some c ∧
      ∃ r ∈ d.rowsL, ∃ s, r.vals.get? c = some (Cell.txt s) ∧
      ensureVarsGo d vars = Except.error (FitErr.nonNumeric (r.idx + 1) c s)) := by
  induction vars with
  | nil => exact Or.inl ⟨rfl, by simp⟩
  | cons p ps ih =>
    obtain ⟨c, hc⟩ := hres p (by simp)
    have hcin : ∀ r ∈ d.rowsL, ∃ cell, r.vals.get? c = some cell :=
      fun r hr => cell_exists d hwf r hr c (find_lt _ _ _ hc)
    rcases chkColGo_spec c d.rowsL hcin with ⟨hok, hns⟩ | ⟨r, hr, s, hs, herr⟩
    · rcases ih (fun v hv => hres v (by simp [hv])) with
        ⟨hok2, hns2⟩ | ⟨v, hv, c2, hc2, r, hr, s, hs, herr2⟩
      · refine Or.inl ⟨?_, ?_⟩
        · simp only [ensureVarsGo, hc, chk_col, hok]; exact hok2
        · intro v hv c2 hc2 r hr s
          rcases List.mem_cons.mp hv with rfl | hmem
          · have : c2 = c := by rw [hc2] at hc; exact (Option.some.inj hc)
            subst this
            exact hns r hr s
          · exact hns2 v hmem c2 hc2 r hr s
      · refine Or.inr ⟨v, by simp [hv], c2, hc2, r, hr, s, hs, ?_⟩
        simp only [ensureVarsGo, hc, chk_col, hok]; exact herr2
    · refine Or.inr ⟨p, by simp, c, hc, r, hr, s, hs, ?_⟩
      simp only [ensureVarsGo, hc, chk_col, herr]

/-- fit forwards a data-validation error unchanged, for every optimiser. -/
lemma fit_ensure_error (sqrtF : Q → F64) (opt : Optimizer) (eq : Equation)
    (d : Data) (target : String) (tgt : ℕ) (e : FitErr)
    (hfind : d.cols.findIgnoreCaseAndWs target = some tgt)
    (hens : ensure_float_values_in_data eq d tgt = Except.error e) :
    fit sqrtF opt eq d target = some (Except.error e) := by
  simp [fit, hfind, hens]

/-- C5: whenever the target column or a column bound by a model variable
contains a text cell (in a well-formed dataset whose target and variable
names all resolve), fit returns, for every optimiser — so before any
optimisation work — the non-numeric-cell error naming the 1-based row index
and the column index of an actual offending text cell of a referenced
column. -/
theorem c5_non_numeric_before_opt (sqrtF : Q → F64) (eq : Equation) (d : Data)
    (target : String) (tgt : ℕ)
    (hwf : d.wf)
    (hfind : d.cols.findIgnoreCaseAndWs target = some tgt)
    (hvars : ∀ v ∈ eq.vars, ∃ c, d.cols.findIgnoreCaseAndWs v = some c)
    (htxt : ∃ rI c s, referencedCol eq d tgt c ∧ cellAt d rI c = some (Cell.txt s)) :
    ∃ rI c s, referencedCol eq d tgt c ∧ cellAt d rI c = some (Cell.txt s) ∧
      ∀ opt : Optimizer, fit sqrtF opt eq d target =
        some (Except.error (FitErr.nonNumeric (rI + 1) c s)) := by
  have htin : ∀ r ∈ d.rowsL, ∃ cell, r.vals.get? tgt = some cell :=
    fun r hr => cell_exists d hwf r hr tgt (find_lt _ _ _ hfind)
  rcases chkColGo_spec tgt d.rowsL htin with ⟨hok, hns⟩ | ⟨r, hr, s, hs, herr⟩
  · -- the target column is text-free; the offending cell is in a bound column
    obtain ⟨rI, c, s, href, hcell⟩ := htxt
    have hvcol : ∃ v ∈ eq.vars, d.cols.findIgnoreCaseAndWs v = some c := by
      rcases href with rfl | hv
      · exfalso
        obtain ⟨row, hrow, hcol⟩ := Option.bind_eq_some.mp hcell
        exact hns (Row.mk rI row d.cols) (rowsL_mem_of_get? d rI row hrow) s hcol
      · exact hv
    rcases ensureVarsGo_spec d hwf eq.vars hvars with
      ⟨hok2, hns2⟩ | ⟨v, hv, c2, hc2, r, hr, s2, hs2, herr2⟩
    · exfalso
      obtain ⟨v, hv, hvc⟩ := hvcol
      obtain ⟨row, hrow, hcol⟩ := Option.bind_eq_some.mp hcell
      exact hns2 v hv c hvc (Row.mk rI row d.cols)
        (rowsL_mem_of_get? d rI row hrow) s hcol
    · refine ⟨r.idx, c2, s2, Or.inr ⟨v, hv, hc2⟩, ?_, ?_⟩
      · show (d.rows.get? r.idx).bind (fun row => row.get? c2) = some (Cell.txt s2)
        rw [mem_rowsL_get? d r hr]
        exact hs2
      · intro opt
        refine fit_ensure_error sqrtF opt eq d target tgt _ hfind ?_
        unfold ensure_float_values_in_data chk_col
        rw [hok]
        exact herr2
  · -- the target column itself contains the text cell chk_col stops at
    refine ⟨r.idx, tgt, s, Or.inl rfl, ?_, ?_⟩
    · show (d.rows.get? r.idx).bind (fun row => row.get? tgt) = some (Cell.txt s)
      rw [mem_rowsL_get? d r hr]
      exact hs
    · intro opt
      refine fit_ensure_error sqrtF opt eq d target tgt _ hfind ?_
      unfold ensure_float_values_in_data chk_col
      rw [herr]

/-- A one-variable equation whose variable binds to column 1, for the C5
witness. -/
def eqVar : Equation := ⟨1, fun _ _ => none, some "p * z", ["p"], ["z"]⟩

/-- A dataset with a text cell in the variable-bound column. -/
def dataVarTxt : Data := ⟨⟨["y", "z"]⟩, [[Cell.num 1, Cell.txt "oops"]]⟩

/-- C5 witness: the theorem applied to a concrete dataset with a text cell in
the bound column. -/
theorem c5_non_numeric_before_opt_witness :
    ∃ rI c s, referencedCol eqVar dataVarTxt 0 c ∧
      cellAt dataVarTxt rI c = some (Cell.txt s) ∧
      ∀ opt : Optimizer, fit sqrtStub opt eqVar dataVarTxt "y" =
        some (Except.error (FitErr.nonNumeric (rI + 1) c s)) :=
  c5_non_numeric_before_opt sqrtStub eqVar dataVarTxt "y" 0
    (by intro row hrow; simp [dataVarTxt] at hrow; simp [hrow, dataVarTxt])
    (by rfl)
    (by
      intro v hv
      simp only [eqVar, List.mem_cons, List.not_mem_nil, or_false] at hv
      subst hv
      exact ⟨1, by rfl⟩)
    ⟨0, 1, "oops", Or.inr ⟨"z", by simp [eqVar], by rfl⟩, by rfl⟩

end Fitme
